import Mathlib

/-!
# Verification of `cursor_dev_rules/cli.py`

A shallow embedding of the `cursor-dev-rules` command-line tool
(`src/cursor_dev_rules/cli.py`) and proofs about its behaviour.

The tool has three pieces:

* `get_rules_path` — locates the bundled `rules` directory, probing an
  installed-package resource lookup, then `Path(__file__).parent / "rules"`,
  then `Path(__file__).parent.parent / "rules"`;
* `copy_rule_file` — copies one file's bytes to a destination, creating
  parent directories, catching every exception and returning a boolean;
* the `fetch` click command — parses `category/framework`, locates the rules
  directory, verifies both rule files exist, copies the general rule and then
  the framework-specific rule into `<cwd>/.cursor/rules/...`.

The embedding models the filesystem as a finite map from paths (component
lists) to byte lists, plus a set of known directories.  Console output is
modelled as an ordered list of abstract messages, and the observable
file-lookup / copy attempts as an ordered list of events.  Python exceptions
are modelled explicitly: the body of `fetch` returns an optional exception,
and the wrapper `fetch` reproduces the `except FileNotFoundError` /
`except Exception` handlers at the bottom of the command (note that
`click.Abort` raised inside the `try:` body is an `Exception`, hence caught
by the catch-all handler before it is re-raised).
-/

namespace CursorDevRules

/-- A filesystem path, as its list of name components.  `pathlib` joining
drops empty names (`Path("a") / "" == Path("a")`), which `pathJoin` mirrors. -/
abbrev Path := List String

/-- File contents, as a list of bytes. -/
abbrev Content := List Nat

/-- Join one more name onto a path.  Models `pathlib`'s `/` operator, which
ignores empty components. -/
def pathJoin (p : Path) (s : String) : Path :=
  if s = "" then p else p ++ [s]

/-- The filesystem: an association list of files with their contents, and the
list of directories known to exist. -/
structure FS where
  files : List (Path × Content)
  dirs : List Path
deriving DecidableEq

/-- Look a path up in an association list of files. -/
def lookupFile : List (Path × Content) → Path → Option Content
  | [], _ => none
  | e :: l, p => if e.1 = p then some e.2 else lookupFile l p

/-- Drop every entry at the given path from an association list of files. -/
def removeFile : List (Path × Content) → Path → List (Path × Content)
  | [], _ => []
  | e :: l, p => if e.1 = p then removeFile l p else e :: removeFile l p

/-- Read the contents of a file, `none` when absent. -/
def FS.read (fs : FS) (p : Path) : Option Content :=
  lookupFile fs.files p

/-- `Path.is_file()`. -/
def FS.isFile (fs : FS) (p : Path) : Bool :=
  (fs.read p).isSome

/-- `Path.is_dir()` (together with `exists()`). -/
def FS.isDir (fs : FS) (p : Path) : Bool :=
  decide (p ∈ fs.dirs)

/-- Write `c` at path `p`, overwriting any prior content (`write_bytes` /
`shutil.copy2`). -/
def FS.write (fs : FS) (p : Path) (c : Content) : FS :=
  ⟨(p, c) :: removeFile fs.files p, fs.dirs⟩

/-- Record one directory as existing (no-op when already present). -/
def FS.addDir (fs : FS) (p : Path) : FS :=
  if p ∈ fs.dirs then fs else ⟨fs.files, fs.dirs ++ [p]⟩

/-- The nonempty prefixes of a path: the chain of ancestors `mkdir(parents=True)`
walks. -/
def ancestors : Path → List Path
  | [] => []
  | a :: rest => [a] :: (ancestors rest).map (fun q => a :: q)

/-- `dest.parent.mkdir(parents=True, exist_ok=True)`: create every ancestor of
the destination's parent directory. -/
def FS.mkdirParents (fs : FS) (dest : Path) : FS :=
  (ancestors dest.dropLast).foldl FS.addDir fs

/- ### Basic lemmas about the filesystem model -/

theorem lookupFile_removeFile_ne (l : List (Path × Content)) {p q : Path}
    (h : q ≠ p) : lookupFile (removeFile l p) q = lookupFile l q := by
  have hqp : ¬ (q = p) := h
  have hpq : ¬ (p = q) := fun hh => h hh.symm
  induction l with
  | nil => rfl
  | cons e l ih =>
    by_cases he : e.1 = p
    · have hq : ¬ (e.1 = q) := fun hq => h (hq ▸ he)
      simp [removeFile, lookupFile, he, hq, hpq, hqp, ih]
    · by_cases hq : e.1 = q
      · simp [removeFile, lookupFile, he, hq, hpq, hqp]
      · simp [removeFile, lookupFile, he, hq, hpq, hqp, ih]

theorem removeFile_comm (l : List (Path × Content)) (p q : Path) :
    removeFile (removeFile l p) q = removeFile (removeFile l q) p := by
  by_cases hpq : p = q
  · subst hpq
    rfl
  · have hqp : ¬ (q = p) := fun hh => hpq hh.symm
    induction l with
    | nil => rfl
    | cons e l ih =>
      by_cases he : e.1 = p <;> by_cases he' : e.1 = q <;>
        simp [removeFile, he, he', hpq, hqp, ih]

theorem removeFile_idem (l : List (Path × Content)) (p : Path) :
    removeFile (removeFile l p) p = removeFile l p := by
  induction l with
  | nil => rfl
  | cons e l ih =>
    by_cases he : e.1 = p <;> simp [removeFile, he, ih]

theorem FS.read_write_self (fs : FS) (p : Path) (c : Content) :
    (fs.write p c).read p = some c := by
  simp [FS.read, FS.write, lookupFile]

theorem FS.read_write_of_ne (fs : FS) {p q : Path} (c : Content) (h : q ≠ p) :
    (fs.write p c).read q = fs.read q := by
  have hpq : ¬ (p = q) := fun hpq => h hpq.symm
  simp [FS.read, FS.write, lookupFile, hpq, lookupFile_removeFile_ne _ h]

theorem FS.dirs_write (fs : FS) (p : Path) (c : Content) :
    (fs.write p c).dirs = fs.dirs := rfl

theorem FS.files_addDir (fs : FS) (p : Path) :
    (fs.addDir p).files = fs.files := by
  unfold FS.addDir
  split <;> rfl

theorem files_foldl_addDir (l : List Path) (fs : FS) :
    (l.foldl FS.addDir fs).files = fs.files := by
  induction l generalizing fs with
  | nil => rfl
  | cons p l ih => simp [List.foldl, ih, FS.files_addDir]

theorem FS.files_mkdirParents (fs : FS) (dest : Path) :
    (fs.mkdirParents dest).files = fs.files :=
  files_foldl_addDir _ fs

theorem FS.read_mkdirParents (fs : FS) (dest q : Path) :
    (fs.mkdirParents dest).read q = fs.read q := by
  simp [FS.read, FS.files_mkdirParents]

theorem FS.isFile_mkdirParents (fs : FS) (dest q : Path) :
    (fs.mkdirParents dest).isFile q = fs.isFile q := by
  simp [FS.isFile, FS.read_mkdirParents]

theorem FS.mem_dirs_addDir_of_mem (fs : FS) {p : Path} (q : Path) (h : p ∈ fs.dirs) :
    p ∈ (fs.addDir q).dirs := by
  unfold FS.addDir
  split
  · exact h
  · exact List.mem_append_left _ h

theorem FS.mem_dirs_addDir_self (fs : FS) (p : Path) :
    p ∈ (fs.addDir p).dirs := by
  unfold FS.addDir
  split
  · assumption
  · exact List.mem_append_right _ (List.mem_singleton.mpr rfl)

theorem mem_dirs_foldl_addDir_of_mem {p : Path} (l : List Path) (fs : FS)
    (h : p ∈ fs.dirs) : p ∈ (l.foldl FS.addDir fs).dirs := by
  induction l generalizing fs with
  | nil => exact h
  | cons q l ih => exact ih _ (FS.mem_dirs_addDir_of_mem fs q h)

theorem mem_dirs_foldl_addDir_self {p : Path} (l : List Path) (fs : FS)
    (h : p ∈ l) : p ∈ (l.foldl FS.addDir fs).dirs := by
  induction l generalizing fs with
  | nil => cases h
  | cons q l ih =>
    rcases List.mem_cons.mp h with h | h
    · subst h
      exact mem_dirs_foldl_addDir_of_mem l _ (FS.mem_dirs_addDir_self fs p)
    · exact ih _ h

theorem FS.addDir_of_mem (fs : FS) {p : Path} (h : p ∈ fs.dirs) :
    fs.addDir p = fs := by
  unfold FS.addDir
  simp [h]

theorem foldl_addDir_of_mem (l : List Path) (fs : FS)
    (h : ∀ p ∈ l, p ∈ fs.dirs) : l.foldl FS.addDir fs = fs := by
  induction l with
  | nil => rfl
  | cons q l ih =>
    have hq : fs.addDir q = fs := fs.addDir_of_mem (h q (List.mem_cons_self q l))
    simp only [List.foldl, hq]
    exact ih fun p hp => h p (List.mem_cons_of_mem q hp)

theorem FS.mkdirParents_of_mem (fs : FS) (dest : Path)
    (h : ∀ p ∈ ancestors dest.dropLast, p ∈ fs.dirs) :
    fs.mkdirParents dest = fs :=
  foldl_addDir_of_mem _ fs h

theorem FS.mem_dirs_mkdirParents (fs : FS) (dest : Path) {p : Path}
    (h : p ∈ ancestors dest.dropLast) : p ∈ (fs.mkdirParents dest).dirs :=
  mem_dirs_foldl_addDir_self _ fs h

theorem FS.mem_dirs_mkdirParents_of_mem (fs : FS) (dest : Path) {p : Path}
    (h : p ∈ fs.dirs) : p ∈ (fs.mkdirParents dest).dirs :=
  mem_dirs_foldl_addDir_of_mem _ fs h

/- ### Splitting the rule-path argument

`rule_path.split("/")` in Python splits on every occurrence of the single
character `/`, keeping empty pieces: `"".split("/") == [""]`,
`"a/".split("/") == ["a", ""]`.  `splitSlash` mirrors this on the character
list of the argument. -/

/-- Split a character list on `'/'`, keeping empty pieces. -/
def splitSlash : List Char → List (List Char)
  | [] => [[]]
  | c :: rest =>
    if c = '/' then [] :: splitSlash rest
    else
      match splitSlash rest with
      | [] => [[c]]
      | piece :: pieces => (c :: piece) :: pieces

/-- `rule_path.split("/")`. -/
def splitPath (s : String) : List String :=
  (splitSlash s.data).map List.asString

/- ### Python exceptions, console messages and observable events -/

/-- The exceptions the embedded code can raise. `abort` is `click.Abort`
(a subclass of `RuntimeError`, hence of `Exception`); `fileNotFound` is
`FileNotFoundError`; `oserror` stands for any other filesystem failure. -/
inductive PyExc
  | abort
  | fileNotFound
  | oserror
deriving DecidableEq

/-- The console messages `cli.py` can print, with the path data each one
interpolates.  Rich markup and panel layout are abstracted away. -/
inductive Msg
  | invalidFormat
  | rulesDirNotFound
  | generalNotFound (attempted : Path)
  | frameworkNotFound (attempted : Path)
  | copyError (dest : Path)
  | copiedGeneral (dest : Path)
  | copiedSpecific (dest : Path)
  | success
  | unexpectedError
deriving DecidableEq

/-- The observable filesystem interactions of `fetch`, in program order:
the two rule-existence lookups and the two copy attempts. -/
inductive Event
  | lookupGeneral
  | lookupSpecific
  | copyGen
  | copySpec
deriving DecidableEq

/- ### The resource locator: `get_rules_path` -/

/-- Outcome of the `importlib.resources.files("cursor_dev_rules") / "rules"`
probe: it resolves to a directory at some location, resolves to a
non-directory, or raises (`ModuleNotFoundError`, `AttributeError`,
`TypeError`, or anything else — all are silently swallowed). -/
inductive ProbeResult
  | found (p : Path)
  | notDir
  | throws
deriving DecidableEq

/-- The environment `get_rules_path` runs in: the package-resource probe
outcome and `Path(__file__).parent`. -/
structure LocEnv where
  pkgProbe : ProbeResult
  fileDir : Path
deriving DecidableEq

/-- `get_rules_path` from `cli.py`: probe the installed-package resource
bundle, then `Path(__file__).parent / "rules"`, then
`Path(__file__).parent.parent / "rules"`; raise `FileNotFoundError`
("Could not find rules directory") when none is a directory. -/
def get_rules_path (env : LocEnv) (fs : FS) : Except PyExc Path :=
  match env.pkgProbe with
  | .found p => .ok p
  | _ =>
    if fs.isDir (env.fileDir ++ ["rules"]) then .ok (env.fileDir ++ ["rules"])
    else if fs.isDir (env.fileDir.dropLast ++ ["rules"]) then
      .ok (env.fileDir.dropLast ++ ["rules"])
    else .error .fileNotFound

/- ### The file copier: `copy_rule_file` -/

/-- A source handle: a `Traversable` from `importlib.resources`, a plain
`pathlib.Path`, or any other object (the final `else` branch of
`copy_rule_file` reads it with `read_bytes` just like a `Traversable`). -/
inductive Source
  | traversable (p : Path)
  | path (p : Path)
  | other (p : Path)
deriving DecidableEq

/-- The location a source handle designates. -/
def Source.loc : Source → Path
  | .traversable p => p
  | .path p => p
  | .other p => p

/-- Failure injection for one `copy_rule_file` call: whether the `mkdir`,
the source read, or the destination write raises an `OSError`. -/
structure CopyEnv where
  mkdirFails : Bool
  readFails : Bool
  writeFails : Bool
deriving DecidableEq

/-- A `CopyEnv` in which no filesystem operation fails. -/
def noFailure : CopyEnv := ⟨false, false, false⟩

/-- The `try:` block of `copy_rule_file`: make the destination's parent
directories, read all bytes from the source (`source.read_bytes()` for a
`Traversable` or other byte-readable object, `shutil.copy2` for a `Path` —
byte-for-byte the same copy), write them to the destination.  Returns the
filesystem as left at the point of any exception, plus the exception. -/
def copyRuleAttempt (env : CopyEnv) (source : Source) (dest : Path) (fs : FS) :
    FS × Option PyExc :=
  if env.mkdirFails then (fs, some .oserror)
  else
    let fs1 := fs.mkdirParents dest
    if env.readFails then (fs1, some .oserror)
    else
      match fs1.read source.loc with
      | none => (fs1, some .fileNotFound)
      | some content =>
        if env.writeFails then (fs1, some .oserror)
        else (fs1.write dest content, none)

/-- `copy_rule_file` from `cli.py`: run the copy attempt; any exception is
caught, an error message naming the destination is printed, and `false` is
returned.  On success `true` is returned and nothing is printed. -/
def copy_rule_file (env : CopyEnv) (source : Source) (dest : Path) (fs : FS) :
    Bool × FS × List Msg :=
  match copyRuleAttempt env source dest fs with
  | (fs1, none) => (true, fs1, [])
  | (fs1, some _) => (false, fs1, [.copyError dest])

/- ### The `fetch` command -/

/-- The environment one invocation of `fetch` runs in: the locator
environment plus failure injection for each of the two copies. -/
structure Env where
  loc : LocEnv
  copyGeneralEnv : CopyEnv
  copySpecificEnv : CopyEnv
deriving DecidableEq

/-- The source handle kind `fetch` hands to `copy_rule_file`: when the rules
came from the package-resource probe the sources are `Traversable`s,
otherwise plain `Path`s. -/
def mkSource (loc : LocEnv) (p : Path) : Source :=
  match loc.pkgProbe with
  | .found _ => .traversable p
  | _ => .path p

/-- `rules_path / category / "general" / "RULE.md"`. -/
def generalSrcOf (rulesPath : Path) (category : String) : Path :=
  pathJoin (pathJoin (pathJoin rulesPath category) "general") "RULE.md"

/-- `rules_path / category / framework / "RULE.md"`. -/
def specificSrcOf (rulesPath : Path) (category framework : String) : Path :=
  pathJoin (pathJoin (pathJoin rulesPath category) framework) "RULE.md"

/-- `cwd / ".cursor" / "rules" / "general" / "RULE.md"`. -/
def generalDestOf (cwd : Path) : Path :=
  cwd ++ [".cursor", "rules", "general", "RULE.md"]

/-- `cwd / ".cursor" / "rules" / "code-patterns" / "RULE.md"`. -/
def specificDestOf (cwd : Path) : Path :=
  cwd ++ [".cursor", "rules", "code-patterns", "RULE.md"]

/-- What one run of the `try:` body of `fetch` leaves behind: the
filesystem, the console messages in order, the observable events in order,
and the exception escaping the body (if any). -/
structure BodyResult where
  fs : FS
  msgs : List Msg
  events : List Event
  exc : Option PyExc
deriving DecidableEq

/-- Copy phase of `fetch`: copy the general rule to
`<cwd>/.cursor/rules/general/RULE.md`; on success print a confirmation and
copy the specific rule to `<cwd>/.cursor/rules/code-patterns/RULE.md`; on
either failure raise `click.Abort`. -/
def copyPhase (env : Env) (cwd : Path) (fs : FS) (generalSrc specificSrc : Path) :
    BodyResult :=
  match copy_rule_file env.copyGeneralEnv (mkSource env.loc generalSrc)
      (generalDestOf cwd) fs with
  | (true, fs1, m1) =>
    match copy_rule_file env.copySpecificEnv (mkSource env.loc specificSrc)
        (specificDestOf cwd) fs1 with
    | (true, fs2, m2) =>
      ⟨fs2,
        (m1 ++ [.copiedGeneral (generalDestOf cwd)]) ++
          (m2 ++ [.copiedSpecific (specificDestOf cwd), .success]),
        [.lookupGeneral, .lookupSpecific, .copyGen, .copySpec], none⟩
    | (false, fs2, m2) =>
      ⟨fs2, (m1 ++ [.copiedGeneral (generalDestOf cwd)]) ++ m2,
        [.lookupGeneral, .lookupSpecific, .copyGen, .copySpec], some .abort⟩
  | (false, fs1, m1) =>
    ⟨fs1, m1, [.lookupGeneral, .lookupSpecific, .copyGen], some .abort⟩

/-- Existence-check phase of `fetch`: compute both source paths, look both
up (`general_exists` and `specific_exists` are both computed before either
is tested), report the missing one, otherwise proceed to the copies. -/
def checkPhase (env : Env) (cwd : Path) (fs : FS) (rulesPath : Path)
    (category framework : String) : BodyResult :=
  let generalSrc := generalSrcOf rulesPath category
  let specificSrc := specificSrcOf rulesPath category framework
  if fs.isFile generalSrc = false then
    ⟨fs, [.generalNotFound generalSrc], [.lookupGeneral, .lookupSpecific],
      some .abort⟩
  else if fs.isFile specificSrc = false then
    ⟨fs, [.frameworkNotFound specificSrc], [.lookupGeneral, .lookupSpecific],
      some .abort⟩
  else
    copyPhase env cwd fs generalSrc specificSrc

/-- The `try:` body of `fetch`: split the argument on `/` and require
exactly two pieces (`len(parts) != 2` — emptiness is not checked), locate
the rules directory (its `FileNotFoundError` escapes the body), then check
and copy. -/
def fetchBody (env : Env) (cwd : Path) (fs : FS) (rule_path : String) :
    BodyResult :=
  match splitPath rule_path with
  | [category, framework] =>
    match get_rules_path env.loc fs with
    | .error e => ⟨fs, [], [], some e⟩
    | .ok rulesPath => checkPhase env cwd fs rulesPath category framework
  | _ => ⟨fs, [.invalidFormat], [], some .abort⟩

/-- The net observable outcome of one `fetch` invocation: final filesystem,
console messages, events, and the process exit code. -/
structure FetchResult where
  fs : FS
  msgs : List Msg
  events : List Event
  exitCode : Nat
deriving DecidableEq

/-- The whole `fetch` command: run the body under its two exception
handlers.  `except FileNotFoundError` prints the "Could not find rules
directory" panel; `except Exception` prints the "Unexpected error" panel —
and `click.Abort` raised inside the body IS an `Exception`, so every
intentional abort path lands here before the abort propagates to click,
which exits with status 1.  A run with no exception exits with status 0. -/
def fetch (env : Env) (cwd : Path) (fs : FS) (rule_path : String) :
    FetchResult :=
  match fetchBody env cwd fs rule_path with
  | ⟨fs1, msgs, events, none⟩ => ⟨fs1, msgs, events, 0⟩
  | ⟨fs1, msgs, events, some .fileNotFound⟩ =>
    ⟨fs1, msgs ++ [.rulesDirNotFound], events, 1⟩
  | ⟨fs1, msgs, events, some _⟩ =>
    ⟨fs1, msgs ++ [.unexpectedError], events, 1⟩

/- ### A concrete development-checkout scenario, used to instantiate the
theorems below -/

/-- A locator environment for a development checkout: the package-resource
probe raises and `Path(__file__).parent` is `repo/cursor_dev_rules`. -/
def demoLoc : LocEnv := ⟨.throws, ["repo", "cursor_dev_rules"]⟩

/-- The rules directory the demo locator finds (the candidate adjacent to
the tool's own location). -/
def demoRules : Path := ["repo", "cursor_dev_rules", "rules"]

/-- A demo filesystem: a rules tree holding `backend/general/RULE.md`,
`backend/django/RULE.md` and also a stray `backend/RULE.md`. -/
def demoFS : FS :=
  ⟨[(demoRules ++ ["backend", "general", "RULE.md"], [35, 32, 71]),
    (demoRules ++ ["backend", "django", "RULE.md"], [35, 32, 68]),
    (demoRules ++ ["backend", "RULE.md"], [35, 32, 83])],
   [demoRules]⟩

/-- The demo working directory. -/
def demoCwd : Path := ["proj"]

/-- A demo environment in which every filesystem operation succeeds. -/
def demoEnv : Env := ⟨demoLoc, noFailure, noFailure⟩

/-- A demo environment in which the write of the general rule fails. -/
def demoEnvGenFail : Env := ⟨demoLoc, ⟨false, false, true⟩, noFailure⟩

/-- A demo environment whose package-resource probe finds the rules. -/
def demoEnvPkg : Env :=
  ⟨⟨.found demoRules, ["repo", "cursor_dev_rules"]⟩, noFailure, noFailure⟩

/-- The demo filesystem with both destination files already present,
holding stale content. -/
def demoFSWithDests : FS :=
  ⟨(generalDestOf demoCwd, [9]) :: (specificDestOf demoCwd, [8]) ::
      demoFS.files,
    demoFS.dirs⟩

/-- A demo environment in which the write of the specific rule fails. -/
def demoEnvSpecFail : Env := ⟨demoLoc, noFailure, ⟨false, false, true⟩⟩

/- ### Characterizing `copy_rule_file` -/

/-- Reading depends only on the file table. -/
theorem FS.read_eq_of_files {fs fs' : FS} (h : fs.files = fs'.files) (p : Path) :
    fs.read p = fs'.read p := by
  simp [FS.read, h]

/-- `copy_rule_file` written out as a single case tree. -/
theorem copy_rule_file_unfold (env : CopyEnv) (src : Source) (dest : Path)
    (fs : FS) :
    copy_rule_file env src dest fs =
      if env.mkdirFails then (false, fs, [.copyError dest])
      else if env.readFails then
        (false, fs.mkdirParents dest, [.copyError dest])
      else
        match (fs.mkdirParents dest).read src.loc with
        | none => (false, fs.mkdirParents dest, [.copyError dest])
        | some c =>
          if env.writeFails then
            (false, fs.mkdirParents dest, [.copyError dest])
          else (true, (fs.mkdirParents dest).write dest c, []) := by
  by_cases hm : env.mkdirFails
  · simp [copy_rule_file, copyRuleAttempt, hm]
  · by_cases hr : env.readFails
    · simp [copy_rule_file, copyRuleAttempt, hm, hr]
    · rcases hread : (fs.mkdirParents dest).read src.loc with _ | c
      · simp [copy_rule_file, copyRuleAttempt, hm, hr, hread]
      · by_cases hw : env.writeFails <;>
          simp [copy_rule_file, copyRuleAttempt, hm, hr, hread, hw]

/-- A successful `copy_rule_file` call: nothing was printed, the source was
readable, and the result is `mkdir` followed by the write of the source
bytes. -/
theorem copy_rule_file_true_spec {env : CopyEnv} {src : Source} {dest : Path}
    {fs fs1 : FS} {m : List Msg}
    (h : copy_rule_file env src dest fs = (true, fs1, m)) :
    m = [] ∧
      ∃ c, fs.read src.loc = some c ∧
        fs1 = (fs.mkdirParents dest).write dest c := by
  rw [copy_rule_file_unfold] at h
  by_cases hm : env.mkdirFails
  · rw [if_pos hm] at h
    injection h with h1 _
    exact Bool.noConfusion h1
  · rw [if_neg hm] at h
    by_cases hr : env.readFails
    · rw [if_pos hr] at h
      injection h with h1 _
      exact Bool.noConfusion h1
    · rw [if_neg hr] at h
      rcases hread : (fs.mkdirParents dest).read src.loc with _ | c
      · rw [hread] at h
        dsimp only at h
        injection h with h1 _
        exact Bool.noConfusion h1
      · rw [hread] at h
        dsimp only at h
        by_cases hw : env.writeFails
        · rw [if_pos hw] at h
          injection h with h1 _
          exact Bool.noConfusion h1
        · rw [if_neg hw] at h
          injection h with _ h23
          injection h23 with h2 h3
          refine ⟨h3.symm, c, ?_, h2.symm⟩
          rw [← FS.read_mkdirParents fs dest src.loc, hread]

/-- A failed `copy_rule_file` call: the diagnostic naming the destination is
printed and the file table is untouched (only directories may have been
created before the failure). -/
theorem copy_rule_file_false_spec {env : CopyEnv} {src : Source} {dest : Path}
    {fs fs1 : FS} {m : List Msg}
    (h : copy_rule_file env src dest fs = (false, fs1, m)) :
    m = [.copyError dest] ∧ fs1.files = fs.files := by
  rw [copy_rule_file_unfold] at h
  by_cases hm : env.mkdirFails
  · rw [if_pos hm] at h
    injection h with _ h23
    injection h23 with h2 h3
    exact ⟨h3.symm, by rw [← h2]⟩
  · rw [if_neg hm] at h
    by_cases hr : env.readFails
    · rw [if_pos hr] at h
      injection h with _ h23
      injection h23 with h2 h3
      exact ⟨h3.symm, by rw [← h2, FS.files_mkdirParents]⟩
    · rw [if_neg hr] at h
      rcases hread : (fs.mkdirParents dest).read src.loc with _ | c
      · rw [hread] at h
        dsimp only at h
        injection h with _ h23
        injection h23 with h2 h3
        exact ⟨h3.symm, by rw [← h2, FS.files_mkdirParents]⟩
      · rw [hread] at h
        dsimp only at h
        by_cases hw : env.writeFails
        · rw [if_pos hw] at h
          injection h with _ h23
          injection h23 with h2 h3
          exact ⟨h3.symm, by rw [← h2, FS.files_mkdirParents]⟩
        · rw [if_neg hw] at h
          injection h with h1 _
          exact Bool.noConfusion h1

/-- Every `copy_rule_file` call lands in exactly one of the two shapes. -/
theorem copy_rule_file_eq (env : CopyEnv) (src : Source) (dest : Path) (fs : FS) :
    (∃ fs1, copy_rule_file env src dest fs = (true, fs1, [])) ∨
    (∃ fs1, copy_rule_file env src dest fs = (false, fs1, [.copyError dest])) := by
  rcases h : copy_rule_file env src dest fs with ⟨ok, fs1, m⟩
  cases ok
  · rcases copy_rule_file_false_spec h with ⟨hm, -⟩
    exact Or.inr ⟨fs1, by rw [hm]⟩
  · rcases copy_rule_file_true_spec h with ⟨hm, -⟩
    exact Or.inl ⟨fs1, by rw [hm]⟩

/-- A `noFailure` copy of an existing source always succeeds, with the
evident result. -/
theorem copy_rule_file_noFailure {src : Source} {dest : Path} {fs : FS}
    {c : Content} (h : fs.read src.loc = some c) :
    copy_rule_file noFailure src dest fs =
      (true, (fs.mkdirParents dest).write dest c, []) := by
  have hread : (fs.mkdirParents dest).read src.loc = some c := by
    rw [FS.read_mkdirParents]
    exact h
  simp [copy_rule_file, copyRuleAttempt, noFailure, hread]

/- ### Characterizing `get_rules_path` and the `fetch` wrapper -/

/-- When the package-resource probe finds a directory, it wins outright. -/
theorem get_rules_path_found {env : LocEnv} {p : Path} (fs : FS)
    (h : env.pkgProbe = .found p) : get_rules_path env fs = .ok p := by
  simp [get_rules_path, h]

/-- The locator only ever raises `FileNotFoundError`. -/
theorem get_rules_path_error {env : LocEnv} {fs : FS} {e : PyExc}
    (h : get_rules_path env fs = .error e) : e = .fileNotFound := by
  rw [get_rules_path] at h
  rcases hp : env.pkgProbe with p | _ | _ <;> rw [hp] at h
  · exact Except.noConfusion h
  all_goals
    dsimp only at h
    split at h
    · exact Except.noConfusion h
    · split at h
      · exact Except.noConfusion h
      · injection h with h1
        exact h1.symm

/-- The wrapper keeps the body's filesystem. -/
theorem fetch_fs_eq (env : Env) (cwd : Path) (fs : FS) (rp : String) :
    (fetch env cwd fs rp).fs = (fetchBody env cwd fs rp).fs := by
  rcases h : fetchBody env cwd fs rp with ⟨fs1, msgs, events, _ | e⟩
  · simp [fetch, h]
  · cases e <;> simp [fetch, h]

/-- The wrapper keeps the body's event trace. -/
theorem fetch_events_eq (env : Env) (cwd : Path) (fs : FS) (rp : String) :
    (fetch env cwd fs rp).events = (fetchBody env cwd fs rp).events := by
  rcases h : fetchBody env cwd fs rp with ⟨fs1, msgs, events, _ | e⟩
  · simp [fetch, h]
  · cases e <;> simp [fetch, h]

/-- The exit status is 0 exactly when no exception escaped the body. -/
theorem fetch_exitCode_eq (env : Env) (cwd : Path) (fs : FS) (rp : String) :
    (fetch env cwd fs rp).exitCode =
      if (fetchBody env cwd fs rp).exc = none then 0 else 1 := by
  rcases h : fetchBody env cwd fs rp with ⟨fs1, msgs, events, _ | e⟩
  · simp [fetch, h]
  · cases e <;> simp [fetch, h]

/-- The handle `fetch` builds designates the path it was built from. -/
theorem mkSource_loc (loc : LocEnv) (p : Path) : (mkSource loc p).loc = p := by
  rcases h : loc.pkgProbe with q | _ | _ <;> simp [mkSource, h, Source.loc]

/-- The two destination paths always differ (`general` vs `code-patterns`). -/
theorem generalDest_ne_specificDest (cwd : Path) :
    generalDestOf cwd ≠ specificDestOf cwd := by
  intro h
  unfold generalDestOf specificDestOf at h
  have h2 := List.append_cancel_left h
  exact absurd h2 (by decide)

/-- The three possible outcomes of the copy phase. -/
theorem copyPhase_cases (env : Env) (cwd : Path) (fs : FS) (g s : Path) :
    (∃ fs1, copyPhase env cwd fs g s =
      ⟨fs1, [.copyError (generalDestOf cwd)],
        [.lookupGeneral, .lookupSpecific, .copyGen], some .abort⟩) ∨
    (∃ fs2, copyPhase env cwd fs g s =
      ⟨fs2, [.copiedGeneral (generalDestOf cwd), .copyError (specificDestOf cwd)],
        [.lookupGeneral, .lookupSpecific, .copyGen, .copySpec], some .abort⟩) ∨
    (∃ fs2, copyPhase env cwd fs g s =
      ⟨fs2,
        [.copiedGeneral (generalDestOf cwd),
         .copiedSpecific (specificDestOf cwd), .success],
        [.lookupGeneral, .lookupSpecific, .copyGen, .copySpec], none⟩) := by
  rcases copy_rule_file_eq env.copyGeneralEnv (mkSource env.loc g)
      (generalDestOf cwd) fs with ⟨fs1, h1⟩ | ⟨fs1, h1⟩
  · rcases copy_rule_file_eq env.copySpecificEnv (mkSource env.loc s)
        (specificDestOf cwd) fs1 with ⟨fs2, h2⟩ | ⟨fs2, h2⟩
    · refine Or.inr (Or.inr ⟨fs2, ?_⟩)
      unfold copyPhase
      rw [h1]
      dsimp only
      rw [h2]
      simp
    · refine Or.inr (Or.inl ⟨fs2, ?_⟩)
      unfold copyPhase
      rw [h1]
      dsimp only
      rw [h2]
      simp
  · refine Or.inl ⟨fs1, ?_⟩
    unfold copyPhase
    rw [h1]

/-- The three possible outcomes of the existence-check phase. -/
theorem checkPhase_cases (env : Env) (cwd : Path) (fs : FS) (rulesPath : Path)
    (category framework : String) :
    checkPhase env cwd fs rulesPath category framework =
      ⟨fs, [.generalNotFound (generalSrcOf rulesPath category)],
        [.lookupGeneral, .lookupSpecific], some .abort⟩ ∨
    checkPhase env cwd fs rulesPath category framework =
      ⟨fs, [.frameworkNotFound (specificSrcOf rulesPath category framework)],
        [.lookupGeneral, .lookupSpecific], some .abort⟩ ∨
    checkPhase env cwd fs rulesPath category framework =
      copyPhase env cwd fs (generalSrcOf rulesPath category)
        (specificSrcOf rulesPath category framework) := by
  cases hg : fs.isFile (generalSrcOf rulesPath category)
  · exact Or.inl (by simp [checkPhase, hg])
  · cases hs : fs.isFile (specificSrcOf rulesPath category framework)
    · exact Or.inr (Or.inl (by simp [checkPhase, hg, hs]))
    · exact Or.inr (Or.inr (by simp [checkPhase, hg, hs]))

/-- The seven possible outcomes of the `try:` body of `fetch`. -/
theorem fetchBody_cases (env : Env) (cwd : Path) (fs : FS) (rp : String) :
    fetchBody env cwd fs rp = ⟨fs, [.invalidFormat], [], some .abort⟩ ∨
    fetchBody env cwd fs rp = ⟨fs, [], [], some .fileNotFound⟩ ∨
    (∃ g, fetchBody env cwd fs rp =
      ⟨fs, [.generalNotFound g], [.lookupGeneral, .lookupSpecific],
        some .abort⟩) ∨
    (∃ s, fetchBody env cwd fs rp =
      ⟨fs, [.frameworkNotFound s], [.lookupGeneral, .lookupSpecific],
        some .abort⟩) ∨
    (∃ fs1, fetchBody env cwd fs rp =
      ⟨fs1, [.copyError (generalDestOf cwd)],
        [.lookupGeneral, .lookupSpecific, .copyGen], some .abort⟩) ∨
    (∃ fs2, fetchBody env cwd fs rp =
      ⟨fs2, [.copiedGeneral (generalDestOf cwd), .copyError (specificDestOf cwd)],
        [.lookupGeneral, .lookupSpecific, .copyGen, .copySpec], some .abort⟩) ∨
    (∃ fs2, fetchBody env cwd fs rp =
      ⟨fs2,
        [.copiedGeneral (generalDestOf cwd),
         .copiedSpecific (specificDestOf cwd), .success],
        [.lookupGeneral, .lookupSpecific, .copyGen, .copySpec], none⟩) := by
  unfold fetchBody
  rcases hsp : splitPath rp with _ | ⟨a, _ | ⟨b, _ | ⟨c, l⟩⟩⟩
  · exact Or.inl rfl
  · exact Or.inl rfl
  · dsimp only
    rcases hloc : get_rules_path env.loc fs with e | rulesPath
    · have he := get_rules_path_error hloc
      subst he
      exact Or.inr (Or.inl rfl)
    · dsimp only
      rcases checkPhase_cases env cwd fs rulesPath a b with h | h | h
      · exact Or.inr (Or.inr (Or.inl ⟨_, h⟩))
      · exact Or.inr (Or.inr (Or.inr (Or.inl ⟨_, h⟩)))
      · rw [h]
        clear h
        rcases copyPhase_cases env cwd fs (generalSrcOf rulesPath a)
            (specificSrcOf rulesPath a b) with ⟨fs1, h2⟩ | ⟨fs2, h2⟩ | ⟨fs2, h2⟩
        · exact Or.inr (Or.inr (Or.inr (Or.inr (Or.inl ⟨fs1, h2⟩))))
        · exact Or.inr (Or.inr (Or.inr (Or.inr (Or.inr (Or.inl ⟨fs2, h2⟩)))))
        · exact Or.inr (Or.inr (Or.inr (Or.inr (Or.inr (Or.inr ⟨fs2, h2⟩)))))
  · exact Or.inl rfl

/-- One successful run of `fetch`, written out: both copies happen, in
order, and the command exits 0. -/
theorem fetch_success_run (env : Env) (cwd : Path) (fs : FS) (rp : String)
    {category framework : String} {rulesPath : Path} {g s : Content}
    (hsp : splitPath rp = [category, framework])
    (hloc : get_rules_path env.loc fs = .ok rulesPath)
    (h1 : env.copyGeneralEnv = noFailure)
    (h2 : env.copySpecificEnv = noFailure)
    (hg : fs.read (generalSrcOf rulesPath category) = some g)
    (hs : fs.read (specificSrcOf rulesPath category framework) = some s)
    (hne : generalDestOf cwd ≠ specificSrcOf rulesPath category framework) :
    fetch env cwd fs rp =
      ⟨(((fs.mkdirParents (generalDestOf cwd)).write (generalDestOf cwd)
            g).mkdirParents (specificDestOf cwd)).write (specificDestOf cwd) s,
        [.copiedGeneral (generalDestOf cwd),
         .copiedSpecific (specificDestOf cwd), .success],
        [.lookupGeneral, .lookupSpecific, .copyGen, .copySpec], 0⟩ := by
  have hgfile : fs.isFile (generalSrcOf rulesPath category) = true := by
    simp [FS.isFile, hg]
  have hsfile : fs.isFile (specificSrcOf rulesPath category framework) = true := by
    simp [FS.isFile, hs]
  have hc1 : copy_rule_file env.copyGeneralEnv
      (mkSource env.loc (generalSrcOf rulesPath category)) (generalDestOf cwd) fs =
      (true, (fs.mkdirParents (generalDestOf cwd)).write (generalDestOf cwd) g,
        []) := by
    rw [h1]
    refine copy_rule_file_noFailure ?_
    rw [mkSource_loc]
    exact hg
  have hread2 : ((fs.mkdirParents (generalDestOf cwd)).write (generalDestOf cwd)
      g).read (specificSrcOf rulesPath category framework) = some s := by
    rw [FS.read_write_of_ne _ _ (fun hh => hne hh.symm), FS.read_mkdirParents]
    exact hs
  have hc2 : copy_rule_file env.copySpecificEnv
      (mkSource env.loc (specificSrcOf rulesPath category framework))
      (specificDestOf cwd)
      ((fs.mkdirParents (generalDestOf cwd)).write (generalDestOf cwd) g) =
      (true,
        (((fs.mkdirParents (generalDestOf cwd)).write (generalDestOf cwd)
            g).mkdirParents (specificDestOf cwd)).write (specificDestOf cwd) s,
        []) := by
    rw [h2]
    refine copy_rule_file_noFailure ?_
    rw [mkSource_loc]
    exact hread2
  have hbody : fetchBody env cwd fs rp =
      ⟨(((fs.mkdirParents (generalDestOf cwd)).write (generalDestOf cwd)
            g).mkdirParents (specificDestOf cwd)).write (specificDestOf cwd) s,
        [.copiedGeneral (generalDestOf cwd),
         .copiedSpecific (specificDestOf cwd), .success],
        [.lookupGeneral, .lookupSpecific, .copyGen, .copySpec], none⟩ := by
    unfold fetchBody
    rw [hsp]
    dsimp only
    rw [hloc]
    dsimp only
    simp only [checkPhase, hgfile]
    rw [if_neg (by decide)]
    rw [if_neg (by simp [hsfile])]
    unfold copyPhase
    rw [hc1]
    dsimp only
    rw [hc2]
    simp
  unfold fetch
  rw [hbody]

/- ### The claims -/

/-- Claim C1, counterexample: the argument `"backend/"` splits into two
segments of which the second is empty — so it does NOT split into two
non-empty segments — yet `fetch` reports no usage error, performs the
rule-existence lookups, attempts both copies and exits 0 (the empty
framework segment is dropped by path joining, so the specific source
collapses to `rules/backend/RULE.md`). -/
theorem fetch_empty_segment_no_usage_error :
    (splitPath "backend/").length = 2 ∧
    "" ∈ splitPath "backend/" ∧
    (fetch demoEnv demoCwd demoFS "backend/").exitCode = 0 ∧
    Msg.invalidFormat ∉ (fetch demoEnv demoCwd demoFS "backend/").msgs ∧
    Event.lookupGeneral ∈ (fetch demoEnv demoCwd demoFS "backend/").events ∧
    Event.copyGen ∈ (fetch demoEnv demoCwd demoFS "backend/").events := by
  decide

/-- Claim C1 as amended: for every rule-path argument that does not split
on `/` into exactly two segments (segments may be empty — the code checks
only the count), `fetch` prints the usage error, exits non-zero, and
attempts no rule-existence lookup and no copy, leaving the filesystem
untouched. -/
theorem fetch_malformed_path_usage_error (env : Env) (cwd : Path) (fs : FS)
    (rp : String) (h : (splitPath rp).length ≠ 2) :
    (fetch env cwd fs rp).msgs = [.invalidFormat, .unexpectedError] ∧
    (fetch env cwd fs rp).exitCode = 1 ∧
    (fetch env cwd fs rp).events = [] ∧
    (fetch env cwd fs rp).fs = fs := by
  have hbody : fetchBody env cwd fs rp =
      ⟨fs, [.invalidFormat], [], some .abort⟩ := by
    unfold fetchBody
    rcases hsp : splitPath rp with _ | ⟨a, _ | ⟨b, _ | ⟨c, l⟩⟩⟩
    · rfl
    · rfl
    · exact absurd (by simp [hsp]) h
    · rfl
  unfold fetch
  rw [hbody]
  exact ⟨rfl, rfl, rfl, rfl⟩

/-- Witness for the amended C1, at the slash-free argument `"django"`. -/
theorem fetch_malformed_path_usage_error_witness :
    (fetch demoEnv demoCwd demoFS "django").msgs =
      [.invalidFormat, .unexpectedError] ∧
    (fetch demoEnv demoCwd demoFS "django").exitCode = 1 ∧
    (fetch demoEnv demoCwd demoFS "django").events = [] := by
  have h := fetch_malformed_path_usage_error demoEnv demoCwd demoFS "django"
    (by decide)
  exact ⟨h.1, h.2.1, h.2.2.1⟩

/-- Claim C4: `get_rules_path` probes the installed-package resource bundle
first (returning it when it is a directory, silently falling through on any
exception or non-directory), then the `rules` directory adjacent to the
tool's own location, then the one a level above, returning the first match
and raising the "rules directory not found" error exactly when no candidate
matches. -/
theorem get_rules_path_fallback_order (env : LocEnv) (fs : FS) :
    (∀ p, env.pkgProbe = .found p → get_rules_path env fs = .ok p) ∧
    ((∀ p, env.pkgProbe ≠ .found p) →
      (fs.isDir (env.fileDir ++ ["rules"]) = true →
        get_rules_path env fs = .ok (env.fileDir ++ ["rules"])) ∧
      (fs.isDir (env.fileDir ++ ["rules"]) = false →
        fs.isDir (env.fileDir.dropLast ++ ["rules"]) = true →
        get_rules_path env fs = .ok (env.fileDir.dropLast ++ ["rules"])) ∧
      (fs.isDir (env.fileDir ++ ["rules"]) = false →
        fs.isDir (env.fileDir.dropLast ++ ["rules"]) = false →
        get_rules_path env fs = .error .fileNotFound)) ∧
    (get_rules_path env fs = .error .fileNotFound ↔
      (∀ p, env.pkgProbe ≠ .found p) ∧
      fs.isDir (env.fileDir ++ ["rules"]) = false ∧
      fs.isDir (env.fileDir.dropLast ++ ["rules"]) = false) := by
  rcases hp : env.pkgProbe with p | _ | _
  · refine ⟨?_, ?_, ?_⟩
    · intro q hq
      injection hq with hq1
      subst hq1
      exact get_rules_path_found fs hp
    · intro hnp
      exact absurd rfl (hnp p)
    · rw [get_rules_path_found fs hp]
      constructor
      · intro hcontra
        exact Except.noConfusion hcontra
      · rintro ⟨hnp, -, -⟩
        exact absurd rfl (hnp p)
  all_goals
    have hget : get_rules_path env fs =
        if fs.isDir (env.fileDir ++ ["rules"]) then .ok (env.fileDir ++ ["rules"])
        else if fs.isDir (env.fileDir.dropLast ++ ["rules"]) then
          .ok (env.fileDir.dropLast ++ ["rules"])
        else .error .fileNotFound := by
      unfold get_rules_path
      rw [hp]
    refine ⟨?_, ?_, ?_⟩
    · intro q hq
      exact ProbeResult.noConfusion hq
    · intro _
      refine ⟨?_, ?_, ?_⟩
      · intro hc2
        rw [hget, if_pos hc2]
      · intro hc2 hc3
        rw [hget, if_neg (by simp [hc2]), if_pos hc3]
      · intro hc2 hc3
        rw [hget, if_neg (by simp [hc2]), if_neg (by simp [hc3])]
    · constructor
      · intro herr
        rw [hget] at herr
        by_cases hc2 : fs.isDir (env.fileDir ++ ["rules"]) = true
        · rw [if_pos hc2] at herr
          exact Except.noConfusion herr
        · have hc2' : fs.isDir (env.fileDir ++ ["rules"]) = false := by
            simpa using hc2
          by_cases hc3 : fs.isDir (env.fileDir.dropLast ++ ["rules"]) = true
          · rw [if_neg (by simp [hc2']), if_pos hc3] at herr
            exact Except.noConfusion herr
          · exact ⟨fun q hq => ProbeResult.noConfusion hq, hc2',
              by simpa using hc3⟩
      · rintro ⟨-, hc2, hc3⟩
        rw [hget, if_neg (by simp [hc2]), if_neg (by simp [hc3])]

/-- Witness for C4, in the demo environment (probe raises, the adjacent
`rules` directory exists). -/
theorem get_rules_path_fallback_order_witness :
    get_rules_path demoLoc demoFS = .ok demoRules := by
  have h := ((get_rules_path_fallback_order demoLoc demoFS).2.1
    (by intro p hp; exact ProbeResult.noConfusion hp)).1 (by decide)
  exact h

/-- Claim C5: when the computed general rule source is not a file, `fetch`
prints the "general rule not found" panel naming the attempted path, exits
non-zero, attempts no copy (both existence lookups do happen first), and
leaves the filesystem untouched. -/
theorem fetch_missing_general_aborts (env : Env) (cwd : Path) (fs : FS)
    (rp : String) (category framework : String) (rulesPath : Path)
    (hsp : splitPath rp = [category, framework])
    (hloc : get_rules_path env.loc fs = .ok rulesPath)
    (hg : fs.isFile (generalSrcOf rulesPath category) = false) :
    (fetch env cwd fs rp).msgs =
      [.generalNotFound (generalSrcOf rulesPath category), .unexpectedError] ∧
    (fetch env cwd fs rp).exitCode = 1 ∧
    (fetch env cwd fs rp).events = [.lookupGeneral, .lookupSpecific] ∧
    (fetch env cwd fs rp).fs = fs := by
  have hbody : fetchBody env cwd fs rp =
      ⟨fs, [.generalNotFound (generalSrcOf rulesPath category)],
        [.lookupGeneral, .lookupSpecific], some .abort⟩ := by
    unfold fetchBody
    rw [hsp]
    dsimp only
    rw [hloc]
    dsimp only
    simp [checkPhase, hg]
  unfold fetch
  rw [hbody]
  exact ⟨rfl, rfl, rfl, rfl⟩

/-- Witness for C5: fetching `frontend/react` in the demo scenario, where
no `frontend` category exists. -/
theorem fetch_missing_general_aborts_witness :
    (fetch demoEnv demoCwd demoFS "frontend/react").msgs =
      [.generalNotFound (demoRules ++ ["frontend", "general", "RULE.md"]),
       .unexpectedError] ∧
    (fetch demoEnv demoCwd demoFS "frontend/react").exitCode = 1 ∧
    (fetch demoEnv demoCwd demoFS "frontend/react").events =
      [.lookupGeneral, .lookupSpecific] := by
  have h := fetch_missing_general_aborts demoEnv demoCwd demoFS "frontend/react"
    "frontend" "react" demoRules (by decide) (by rfl) (by decide)
  exact ⟨h.1, h.2.1, h.2.2.1⟩

/-- Claim C6: when the general rule source exists but the framework-specific
one does not, `fetch` prints the "framework rule not found" panel naming the
attempted path, exits non-zero, attempts no copy, and leaves the filesystem
untouched. -/
theorem fetch_missing_specific_aborts (env : Env) (cwd : Path) (fs : FS)
    (rp : String) (category framework : String) (rulesPath : Path)
    (hsp : splitPath rp = [category, framework])
    (hloc : get_rules_path env.loc fs = .ok rulesPath)
    (hg : fs.isFile (generalSrcOf rulesPath category) = true)
    (hs : fs.isFile (specificSrcOf rulesPath category framework) = false) :
    (fetch env cwd fs rp).msgs =
      [.frameworkNotFound (specificSrcOf rulesPath category framework),
       .unexpectedError] ∧
    (fetch env cwd fs rp).exitCode = 1 ∧
    (fetch env cwd fs rp).events = [.lookupGeneral, .lookupSpecific] ∧
    (fetch env cwd fs rp).fs = fs := by
  have hbody : fetchBody env cwd fs rp =
      ⟨fs, [.frameworkNotFound (specificSrcOf rulesPath category framework)],
        [.lookupGeneral, .lookupSpecific], some .abort⟩ := by
    unfold fetchBody
    rw [hsp]
    dsimp only
    rw [hloc]
    dsimp only
    simp [checkPhase, hg, hs]
  unfold fetch
  rw [hbody]
  exact ⟨rfl, rfl, rfl, rfl⟩

/-- Witness for C6: fetching `backend/flask` in the demo scenario, where
`backend/general/RULE.md` exists but `backend/flask/RULE.md` does not. -/
theorem fetch_missing_specific_aborts_witness :
    (fetch demoEnv demoCwd demoFS "backend/flask").msgs =
      [.frameworkNotFound (demoRules ++ ["backend", "flask", "RULE.md"]),
       .unexpectedError] ∧
    (fetch demoEnv demoCwd demoFS "backend/flask").exitCode = 1 ∧
    (fetch demoEnv demoCwd demoFS "backend/flask").events =
      [.lookupGeneral, .lookupSpecific] := by
  have h := fetch_missing_specific_aborts demoEnv demoCwd demoFS "backend/flask"
    "backend" "flask" demoRules (by decide) (by rfl) (by decide) (by decide)
  exact ⟨h.1, h.2.1, h.2.2.1⟩

/-- Claim C7: `copy_rule_file` is a total function — it never raises.  When
it returns `true` it has created every missing ancestor of the destination's
parent and written the source bytes over the destination (other files
untouched), printing nothing; when it returns `false` it has printed the
diagnostic naming the destination and left the file table unchanged. -/
theorem copy_rule_file_total_spec (env : CopyEnv) (src : Source) (dest : Path)
    (fs : FS) :
    ((copy_rule_file env src dest fs).1 = true →
      (copy_rule_file env src dest fs).2.2 = [] ∧
      (∃ c, fs.read src.loc = some c ∧
        (copy_rule_file env src dest fs).2.1.read dest = some c) ∧
      (∀ q, q ∈ ancestors dest.dropLast →
        q ∈ (copy_rule_file env src dest fs).2.1.dirs) ∧
      (∀ q, q ≠ dest →
        (copy_rule_file env src dest fs).2.1.read q = fs.read q)) ∧
    ((copy_rule_file env src dest fs).1 = false →
      (copy_rule_file env src dest fs).2.2 = [.copyError dest] ∧
      (copy_rule_file env src dest fs).2.1.files = fs.files) := by
  rcases h : copy_rule_file env src dest fs with ⟨ok, fs1, m⟩
  cases ok
  · exact ⟨fun hcontra => Bool.noConfusion hcontra,
      fun _ => copy_rule_file_false_spec h⟩
  · refine ⟨fun _ => ?_, fun hcontra => Bool.noConfusion hcontra⟩
    rcases copy_rule_file_true_spec h with ⟨hm, c, hc, hfs1⟩
    subst hm
    subst hfs1
    refine ⟨rfl, ⟨c, hc, FS.read_write_self _ _ _⟩, ?_, ?_⟩
    · intro q hq
      show q ∈ ((fs.mkdirParents dest).write dest c).dirs
      rw [FS.dirs_write]
      exact FS.mem_dirs_mkdirParents fs dest hq
    · intro q hq
      show ((fs.mkdirParents dest).write dest c).read q = fs.read q
      rw [FS.read_write_of_ne _ _ hq, FS.read_mkdirParents]

/-- Witness for C7: a concrete successful copy in the demo filesystem. -/
theorem copy_rule_file_total_spec_witness :
    (copy_rule_file noFailure
      (Source.path (demoRules ++ ["backend", "general", "RULE.md"]))
      (generalDestOf demoCwd) demoFS).2.2 = [] :=
  ((copy_rule_file_total_spec noFailure
    (Source.path (demoRules ++ ["backend", "general", "RULE.md"]))
    (generalDestOf demoCwd) demoFS).1 (by decide)).1

/-- Claim C2: for a well-formed rules directory containing both the general
and the framework-specific rule (and destinations distinct from the
sources), `fetch category/framework` exits 0 and leaves both destination
files with content byte-identical to their respective (unchanged) source
files. -/
theorem fetch_wellformed_copies_both (env : Env) (cwd : Path) (fs : FS)
    (rp : String) (category framework : String) (rulesPath : Path)
    (g s : Content)
    (hsp : splitPath rp = [category, framework])
    (hloc : get_rules_path env.loc fs = .ok rulesPath)
    (h1 : env.copyGeneralEnv = noFailure)
    (h2 : env.copySpecificEnv = noFailure)
    (hg : fs.read (generalSrcOf rulesPath category) = some g)
    (hs : fs.read (specificSrcOf rulesPath category framework) = some s)
    (hne1 : generalDestOf cwd ≠ generalSrcOf rulesPath category)
    (hne2 : generalDestOf cwd ≠ specificSrcOf rulesPath category framework)
    (hne3 : specificDestOf cwd ≠ generalSrcOf rulesPath category)
    (hne4 : specificDestOf cwd ≠ specificSrcOf rulesPath category framework) :
    (fetch env cwd fs rp).exitCode = 0 ∧
    (fetch env cwd fs rp).fs.read (generalDestOf cwd) = some g ∧
    (fetch env cwd fs rp).fs.read (specificDestOf cwd) = some s ∧
    (fetch env cwd fs rp).fs.read (generalSrcOf rulesPath category) = some g ∧
    (fetch env cwd fs rp).fs.read (specificSrcOf rulesPath category framework) =
      some s := by
  rw [fetch_success_run env cwd fs rp hsp hloc h1 h2 hg hs hne2]
  refine ⟨rfl, ?_, ?_, ?_, ?_⟩
  · show ((((fs.mkdirParents (generalDestOf cwd)).write (generalDestOf cwd)
        g).mkdirParents (specificDestOf cwd)).write (specificDestOf cwd) s).read
        (generalDestOf cwd) = some g
    rw [FS.read_write_of_ne _ _ (generalDest_ne_specificDest cwd),
      FS.read_mkdirParents, FS.read_write_self]
  · exact FS.read_write_self _ _ _
  · show _ = some g
    rw [FS.read_write_of_ne _ _ (Ne.symm hne3), FS.read_mkdirParents,
      FS.read_write_of_ne _ _ (Ne.symm hne1), FS.read_mkdirParents]
    exact hg
  · show _ = some s
    rw [FS.read_write_of_ne _ _ (Ne.symm hne4), FS.read_mkdirParents,
      FS.read_write_of_ne _ _ (Ne.symm hne2), FS.read_mkdirParents]
    exact hs

/-- Witness for C2: the demo run `fetch backend/django` exits 0 and installs
both rules byte-identically. -/
theorem fetch_wellformed_copies_both_witness :
    (fetch demoEnv demoCwd demoFS "backend/django").exitCode = 0 ∧
    (fetch demoEnv demoCwd demoFS "backend/django").fs.read
      (generalDestOf demoCwd) = some [35, 32, 71] ∧
    (fetch demoEnv demoCwd demoFS "backend/django").fs.read
      (specificDestOf demoCwd) = some [35, 32, 68] := by
  have h := fetch_wellformed_copies_both demoEnv demoCwd demoFS "backend/django"
    "backend" "django" demoRules [35, 32, 71] [35, 32, 68]
    (by decide) (by rfl) (by rfl) (by rfl) (by decide) (by decide)
    (by decide) (by decide) (by decide) (by decide)
  exact ⟨h.1, h.2.1, h.2.2.1⟩

/-- The body of `fetch` when the copy of the general rule fails: the
specific copy is never attempted and `click.Abort` is raised. -/
theorem fetchBody_copy1_fail (env : Env) (cwd : Path) (fs : FS) (rp : String)
    {category framework : String} {rulesPath : Path} {fs1 : FS} {m1 : List Msg}
    (hsp : splitPath rp = [category, framework])
    (hloc : get_rules_path env.loc fs = .ok rulesPath)
    (hgfile : fs.isFile (generalSrcOf rulesPath category) = true)
    (hsfile : fs.isFile (specificSrcOf rulesPath category framework) = true)
    (hcc : copy_rule_file env.copyGeneralEnv
      (mkSource env.loc (generalSrcOf rulesPath category))
      (generalDestOf cwd) fs = (false, fs1, m1)) :
    fetchBody env cwd fs rp =
      ⟨fs1, m1, [.lookupGeneral, .lookupSpecific, .copyGen], some .abort⟩ := by
  unfold fetchBody
  rw [hsp]
  dsimp only
  rw [hloc]
  dsimp only
  simp only [checkPhase, hgfile]
  rw [if_neg (by decide)]
  rw [if_neg (by simp [hsfile])]
  unfold copyPhase
  rw [hcc]

/-- The body of `fetch` when the general copy succeeds but the specific copy
fails: the general-rule write stays, `click.Abort` is raised. -/
theorem fetchBody_copy2_fail (env : Env) (cwd : Path) (fs : FS) (rp : String)
    {category framework : String} {rulesPath : Path} {fs1 fs2 : FS}
    {m1 m2 : List Msg}
    (hsp : splitPath rp = [category, framework])
    (hloc : get_rules_path env.loc fs = .ok rulesPath)
    (hgfile : fs.isFile (generalSrcOf rulesPath category) = true)
    (hsfile : fs.isFile (specificSrcOf rulesPath category framework) = true)
    (hcc1 : copy_rule_file env.copyGeneralEnv
      (mkSource env.loc (generalSrcOf rulesPath category))
      (generalDestOf cwd) fs = (true, fs1, m1))
    (hcc2 : copy_rule_file env.copySpecificEnv
      (mkSource env.loc (specificSrcOf rulesPath category framework))
      (specificDestOf cwd) fs1 = (false, fs2, m2)) :
    fetchBody env cwd fs rp =
      ⟨fs2, (m1 ++ [.copiedGeneral (generalDestOf cwd)]) ++ m2,
        [.lookupGeneral, .lookupSpecific, .copyGen, .copySpec],
        some .abort⟩ := by
  unfold fetchBody
  rw [hsp]
  dsimp only
  rw [hloc]
  dsimp only
  simp only [checkPhase, hgfile]
  rw [if_neg (by decide)]
  rw [if_neg (by simp [hsfile])]
  unfold copyPhase
  rw [hcc1]
  dsimp only
  rw [hcc2]

/-- Claim C3: in every run the general-rule copy attempt strictly precedes
the specific-rule copy attempt (the only possible event traces are the
listed prefixes); if the general copy fails, `fetch` aborts without ever
attempting the specific copy; and if the specific copy fails after the
general copy succeeded, the already-written general destination file keeps
the general source's bytes — no rollback. -/
theorem fetch_copy_sequencing (env : Env) (cwd : Path) (fs : FS)
    (rp : String) :
    ((fetch env cwd fs rp).events = [] ∨
     (fetch env cwd fs rp).events = [.lookupGeneral, .lookupSpecific] ∨
     (fetch env cwd fs rp).events =
       [.lookupGeneral, .lookupSpecific, .copyGen] ∨
     (fetch env cwd fs rp).events =
       [.lookupGeneral, .lookupSpecific, .copyGen, .copySpec]) ∧
    (∀ category framework : String, ∀ rulesPath : Path,
      splitPath rp = [category, framework] →
      get_rules_path env.loc fs = .ok rulesPath →
      fs.isFile (generalSrcOf rulesPath category) = true →
      fs.isFile (specificSrcOf rulesPath category framework) = true →
      ((copy_rule_file env.copyGeneralEnv
          (mkSource env.loc (generalSrcOf rulesPath category))
          (generalDestOf cwd) fs).1 = false →
        Event.copySpec ∉ (fetch env cwd fs rp).events ∧
        (fetch env cwd fs rp).exitCode = 1) ∧
      ((copy_rule_file env.copyGeneralEnv
          (mkSource env.loc (generalSrcOf rulesPath category))
          (generalDestOf cwd) fs).1 = true →
        (copy_rule_file env.copySpecificEnv
          (mkSource env.loc (specificSrcOf rulesPath category framework))
          (specificDestOf cwd)
          (copy_rule_file env.copyGeneralEnv
            (mkSource env.loc (generalSrcOf rulesPath category))
            (generalDestOf cwd) fs).2.1).1 = false →
        (fetch env cwd fs rp).exitCode = 1 ∧
        (fetch env cwd fs rp).fs.read (generalDestOf cwd) =
          fs.read (generalSrcOf rulesPath category))) := by
  constructor
  · rw [fetch_events_eq]
    rcases fetchBody_cases env cwd fs rp with hb | hb | ⟨g, hb⟩ | ⟨s, hb⟩ |
      ⟨fs1, hb⟩ | ⟨fs2, hb⟩ | ⟨fs2, hb⟩ <;> rw [hb]
    · exact Or.inl rfl
    · exact Or.inl rfl
    · exact Or.inr (Or.inl rfl)
    · exact Or.inr (Or.inl rfl)
    · exact Or.inr (Or.inr (Or.inl rfl))
    · exact Or.inr (Or.inr (Or.inr rfl))
    · exact Or.inr (Or.inr (Or.inr rfl))
  · intro category framework rulesPath hsp hloc hgfile hsfile
    constructor
    · intro hfail
      rcases hcc : copy_rule_file env.copyGeneralEnv
          (mkSource env.loc (generalSrcOf rulesPath category))
          (generalDestOf cwd) fs with ⟨ok1, fs1, m1⟩
      rw [hcc] at hfail
      dsimp only at hfail
      subst hfail
      have hbody := fetchBody_copy1_fail env cwd fs rp hsp hloc hgfile hsfile hcc
      constructor
      · rw [fetch_events_eq, hbody]
        show Event.copySpec ∉
          [Event.lookupGeneral, Event.lookupSpecific, Event.copyGen]
        decide
      · rw [fetch_exitCode_eq, hbody]
        rfl
    · intro hok1 hfail2
      rcases hcc1 : copy_rule_file env.copyGeneralEnv
          (mkSource env.loc (generalSrcOf rulesPath category))
          (generalDestOf cwd) fs with ⟨ok1, fs1, m1⟩
      rw [hcc1] at hok1 hfail2
      dsimp only at hok1 hfail2
      subst hok1
      rcases hcc2 : copy_rule_file env.copySpecificEnv
          (mkSource env.loc (specificSrcOf rulesPath category framework))
          (specificDestOf cwd) fs1 with ⟨ok2, fs2, m2⟩
      rw [hcc2] at hfail2
      dsimp only at hfail2
      subst hfail2
      have hbody := fetchBody_copy2_fail env cwd fs rp hsp hloc hgfile hsfile
        hcc1 hcc2
      rcases copy_rule_file_true_spec hcc1 with ⟨-, c, hc, hfs1⟩
      rcases copy_rule_file_false_spec hcc2 with ⟨-, hfiles2⟩
      rw [mkSource_loc] at hc
      constructor
      · rw [fetch_exitCode_eq, hbody]
        rfl
      · rw [fetch_fs_eq, hbody]
        show fs2.read (generalDestOf cwd) = _
        rw [FS.read_eq_of_files hfiles2, hfs1, FS.read_write_self, hc]

/-- Witness for C3: in the demo scenario with a failing specific-rule write,
`fetch` exits 1 and the general destination file still holds the general
source bytes. -/
theorem fetch_copy_sequencing_witness :
    (fetch demoEnvSpecFail demoCwd demoFS "backend/django").exitCode = 1 ∧
    (fetch demoEnvSpecFail demoCwd demoFS "backend/django").fs.read
      (generalDestOf demoCwd) =
      demoFS.read (generalSrcOf demoRules "backend") := by
  have h := ((fetch_copy_sequencing demoEnvSpecFail demoCwd demoFS
    "backend/django").2 "backend" "django" demoRules (by decide) (by rfl)
    (by decide) (by decide)).2 (by decide) (by decide)
  exact h

/-- Filesystems with the same file table and directory list are equal. -/
theorem FS.ext_parts {a b : FS} (hf : a.files = b.files)
    (hd : a.dirs = b.dirs) : a = b := by
  cases a
  cases b
  cases hf
  cases hd
  rfl

theorem removeFile_cons_of_ne (e : Path × Content)
    (l : List (Path × Content)) {p : Path} (h : ¬ (e.1 = p)) :
    removeFile (e :: l) p = e :: removeFile l p := by
  simp [removeFile, h]

theorem removeFile_cons_self (e : Path × Content)
    (l : List (Path × Content)) {p : Path} (h : e.1 = p) :
    removeFile (e :: l) p = removeFile l p := by
  simp [removeFile, h]

/-- Re-writing the same two distinct keys with the same contents restores a
filesystem whose file table is already in the written shape. -/
theorem write_write_restore (Y : FS) {gd sd : Path} {g s : Content}
    (f0 : List (Path × Content)) (hne : gd ≠ sd)
    (hY : Y.files = (sd, s) :: (gd, g) ::
      removeFile (removeFile f0 gd) sd) :
    (Y.write gd g).write sd s = Y := by
  have hne' : ¬ (sd = gd) := fun hh => hne hh.symm
  have h3 : (Y.write gd g).files =
      (gd, g) :: (sd, s) :: removeFile (removeFile f0 gd) sd := by
    show (gd, g) :: removeFile Y.files gd = _
    rw [hY, removeFile_cons_of_ne _ _ hne', removeFile_cons_self _ _ rfl,
      removeFile_comm, removeFile_idem]
  apply FS.ext_parts
  · show (sd, s) :: removeFile (Y.write gd g).files sd = Y.files
    rw [h3, removeFile_cons_of_ne _ _ hne, removeFile_cons_self _ _ rfl,
      removeFile_idem, hY]
  · rfl

/-- Running the copy sequence of a successful `fetch` a second time, over
the filesystem it produced, changes nothing. -/
theorem success_fs_idem (fs : FS) {gd sd : Path} (g s : Content)
    (hne : gd ≠ sd) :
    (((((((fs.mkdirParents gd).write gd g).mkdirParents sd).write sd
          s).mkdirParents gd).write gd g).mkdirParents sd).write sd s =
      (((fs.mkdirParents gd).write gd g).mkdirParents sd).write sd s := by
  have hanc_gd : ∀ q ∈ ancestors gd.dropLast,
      q ∈ ((((fs.mkdirParents gd).write gd g).mkdirParents sd).write
        sd s).dirs := by
    intro q hq
    exact FS.mem_dirs_mkdirParents_of_mem
      ((fs.mkdirParents gd).write gd g) sd (FS.mem_dirs_mkdirParents fs gd hq)
  have hm1 : ((((fs.mkdirParents gd).write gd g).mkdirParents sd).write sd
      s).mkdirParents gd =
      (((fs.mkdirParents gd).write gd g).mkdirParents sd).write sd s :=
    FS.mkdirParents_of_mem _ gd hanc_gd
  rw [hm1]
  have hanc_sd : ∀ q ∈ ancestors sd.dropLast,
      q ∈ (((((fs.mkdirParents gd).write gd g).mkdirParents sd).write sd
        s).write gd g).dirs := by
    intro q hq
    exact FS.mem_dirs_mkdirParents ((fs.mkdirParents gd).write gd g) sd hq
  have hm2 : (((((fs.mkdirParents gd).write gd g).mkdirParents sd).write sd
      s).write gd g).mkdirParents sd =
      ((((fs.mkdirParents gd).write gd g).mkdirParents sd).write sd
        s).write gd g :=
    FS.mkdirParents_of_mem _ sd hanc_sd
  rw [hm2]
  have hfiles : ((((fs.mkdirParents gd).write gd g).mkdirParents sd).write
      sd s).files =
      (sd, s) :: (gd, g) :: removeFile (removeFile fs.files gd) sd := by
    show (sd, s) ::
      removeFile (((fs.mkdirParents gd).write gd g).mkdirParents sd).files
        sd = _
    rw [FS.files_mkdirParents]
    show (sd, s) ::
      removeFile ((gd, g) :: removeFile (fs.mkdirParents gd).files gd) sd = _
    rw [FS.files_mkdirParents, removeFile_cons_of_ne _ _ hne]
  exact write_write_restore _ fs.files hne hfiles

/-- Claim C8: running `fetch` when the destination files already exist
overwrites their prior content exactly with the source content, and — for an
unchanged rules directory (sources distinct from destinations, locator
answering from the package probe) — running `fetch` twice leaves exactly the
end state of running it once. -/
theorem fetch_overwrite_idempotent (env : Env) (cwd : Path) (fs : FS)
    (rp : String) (category framework : String) (rulesPath : Path)
    (g s : Content)
    (hsp : splitPath rp = [category, framework])
    (hprobe : env.loc.pkgProbe = .found rulesPath)
    (h1 : env.copyGeneralEnv = noFailure)
    (h2 : env.copySpecificEnv = noFailure)
    (hg : fs.read (generalSrcOf rulesPath category) = some g)
    (hs : fs.read (specificSrcOf rulesPath category framework) = some s)
    (_hgd : (fs.read (generalDestOf cwd)).isSome = true)
    (_hsd : (fs.read (specificDestOf cwd)).isSome = true)
    (hne1 : generalDestOf cwd ≠ generalSrcOf rulesPath category)
    (hne2 : generalDestOf cwd ≠ specificSrcOf rulesPath category framework)
    (hne3 : specificDestOf cwd ≠ generalSrcOf rulesPath category)
    (hne4 : specificDestOf cwd ≠ specificSrcOf rulesPath category framework) :
    (fetch env cwd fs rp).fs.read (generalDestOf cwd) = some g ∧
    (fetch env cwd fs rp).fs.read (specificDestOf cwd) = some s ∧
    fetch env cwd (fetch env cwd fs rp).fs rp = fetch env cwd fs rp := by
  have hloc : get_rules_path env.loc fs = .ok rulesPath :=
    get_rules_path_found fs hprobe
  have hrun1 := fetch_success_run env cwd fs rp hsp hloc h1 h2 hg hs hne2
  refine ⟨?_, ?_, ?_⟩
  · rw [hrun1]
    show ((((fs.mkdirParents (generalDestOf cwd)).write (generalDestOf cwd)
        g).mkdirParents (specificDestOf cwd)).write (specificDestOf cwd)
        s).read (generalDestOf cwd) = some g
    rw [FS.read_write_of_ne _ _ (generalDest_ne_specificDest cwd),
      FS.read_mkdirParents, FS.read_write_self]
  · rw [hrun1]
    exact FS.read_write_self _ _ _
  · have hg2 : ((((fs.mkdirParents (generalDestOf cwd)).write
        (generalDestOf cwd) g).mkdirParents (specificDestOf cwd)).write
        (specificDestOf cwd) s).read (generalSrcOf rulesPath category) =
        some g := by
      rw [FS.read_write_of_ne _ _ (Ne.symm hne3), FS.read_mkdirParents,
        FS.read_write_of_ne _ _ (Ne.symm hne1), FS.read_mkdirParents]
      exact hg
    have hs2 : ((((fs.mkdirParents (generalDestOf cwd)).write
        (generalDestOf cwd) g).mkdirParents (specificDestOf cwd)).write
        (specificDestOf cwd) s).read
        (specificSrcOf rulesPath category framework) = some s := by
      rw [FS.read_write_of_ne _ _ (Ne.symm hne4), FS.read_mkdirParents,
        FS.read_write_of_ne _ _ (Ne.symm hne2), FS.read_mkdirParents]
      exact hs
    have hloc2 : get_rules_path env.loc
        ((((fs.mkdirParents (generalDestOf cwd)).write (generalDestOf cwd)
          g).mkdirParents (specificDestOf cwd)).write (specificDestOf cwd)
          s) = .ok rulesPath :=
      get_rules_path_found _ hprobe
    have hrun2 := fetch_success_run env cwd
      ((((fs.mkdirParents (generalDestOf cwd)).write (generalDestOf cwd)
        g).mkdirParents (specificDestOf cwd)).write (specificDestOf cwd) s)
      rp hsp hloc2 h1 h2 hg2 hs2 hne2
    rw [hrun1]
    show fetch env cwd
      ((((fs.mkdirParents (generalDestOf cwd)).write (generalDestOf cwd)
        g).mkdirParents (specificDestOf cwd)).write (specificDestOf cwd) s)
      rp = _
    rw [hrun2, success_fs_idem fs g s (generalDest_ne_specificDest cwd)]

/-- Witness for C8, in a demo scenario where the rules come from the
package-resource probe and both destination files already exist with stale
content. -/
theorem fetch_overwrite_idempotent_witness :
    (fetch demoEnvPkg demoCwd demoFSWithDests "backend/django").fs.read
      (generalDestOf demoCwd) = some [35, 32, 71] ∧
    (fetch demoEnvPkg demoCwd demoFSWithDests "backend/django").fs.read
      (specificDestOf demoCwd) = some [35, 32, 68] ∧
    fetch demoEnvPkg demoCwd
      (fetch demoEnvPkg demoCwd demoFSWithDests "backend/django").fs
      "backend/django" =
      fetch demoEnvPkg demoCwd demoFSWithDests "backend/django" :=
  fetch_overwrite_idempotent demoEnvPkg demoCwd demoFSWithDests
    "backend/django" "backend" "django" demoRules [35, 32, 71] [35, 32, 68]
    (by decide) (by rfl) (by rfl) (by rfl) (by decide) (by decide)
    (by decide) (by decide) (by decide) (by decide) (by decide) (by decide)

/-- Claim C9: any exception escaping the body of `fetch` other than the
`FileNotFoundError` taken by its dedicated handler is caught by the
top-level `except Exception` handler, which prints the "Unexpected error"
panel as the final message, and the process exits non-zero. -/
theorem fetch_toplevel_catchall (env : Env) (cwd : Path) (fs : FS)
    (rp : String) (e : PyExc)
    (hexc : (fetchBody env cwd fs rp).exc = some e)
    (hne : e ≠ .fileNotFound) :
    (fetch env cwd fs rp).msgs =
      (fetchBody env cwd fs rp).msgs ++ [.unexpectedError] ∧
    (fetch env cwd fs rp).msgs.getLast? = some .unexpectedError ∧
    (fetch env cwd fs rp).exitCode = 1 := by
  rcases hb : fetchBody env cwd fs rp with ⟨fs1, msgs, events, exc⟩
  have hexc' : exc = some e := by
    rw [hb] at hexc
    exact hexc
  subst hexc'
  unfold fetch
  rw [hb]
  cases e
  · exact ⟨rfl, by simp, rfl⟩
  · exact absurd rfl hne
  · exact ⟨rfl, by simp, rfl⟩

/-- Witness for C9: the malformed argument `"nope"` makes the body raise
`click.Abort`, and the wrapper reports the unexpected error and exits 1. -/
theorem fetch_toplevel_catchall_witness :
    (fetch demoEnv demoCwd demoFS "nope").msgs.getLast? =
      some .unexpectedError ∧
    (fetch demoEnv demoCwd demoFS "nope").exitCode = 1 := by
  have h := fetch_toplevel_catchall demoEnv demoCwd demoFS "nope" .abort
    (by decide) (by decide)
  exact ⟨h.2.1, h.2.2⟩

/-- Claim C10: on every intentional failure path (usage error, missing
general rule, missing framework rule, failed copy) the `click.Abort` raised
after the specific error message is caught by the top-level catch-all, so an
additional "Unexpected error" message is printed last before the non-zero
exit — the specific message is never the only error output. -/
theorem fetch_error_paths_double_report (env : Env) (cwd : Path) (fs : FS)
    (rp : String)
    (h : Msg.invalidFormat ∈ (fetch env cwd fs rp).msgs ∨
      (∃ p, Msg.generalNotFound p ∈ (fetch env cwd fs rp).msgs) ∨
      (∃ p, Msg.frameworkNotFound p ∈ (fetch env cwd fs rp).msgs) ∨
      (∃ p, Msg.copyError p ∈ (fetch env cwd fs rp).msgs)) :
    (fetch env cwd fs rp).msgs.getLast? = some .unexpectedError ∧
    (fetch env cwd fs rp).exitCode = 1 ∧
    2 ≤ (fetch env cwd fs rp).msgs.length := by
  unfold fetch at h ⊢
  rcases fetchBody_cases env cwd fs rp with hb | hb | ⟨g, hb⟩ | ⟨s, hb⟩ |
    ⟨fs1, hb⟩ | ⟨fs2, hb⟩ | ⟨fs2, hb⟩ <;> rw [hb] at h ⊢
  · exact ⟨rfl, rfl, by simp⟩
  · simp at h
  · exact ⟨rfl, rfl, by simp⟩
  · exact ⟨rfl, rfl, by simp⟩
  · exact ⟨rfl, rfl, by simp⟩
  · exact ⟨rfl, rfl, by simp⟩
  · simp at h

/-- Witness for C10: the missing-framework path in the demo scenario prints
the specific message AND the trailing "Unexpected error". -/
theorem fetch_error_paths_double_report_witness :
    (fetch demoEnv demoCwd demoFS "backend/flask").msgs.getLast? =
      some .unexpectedError ∧
    (fetch demoEnv demoCwd demoFS "backend/flask").exitCode = 1 ∧
    2 ≤ (fetch demoEnv demoCwd demoFS "backend/flask").msgs.length := by
  exact fetch_error_paths_double_report demoEnv demoCwd demoFS "backend/flask"
    (Or.inr (Or.inr (Or.inl ⟨demoRules ++ ["backend", "flask", "RULE.md"],
      by decide⟩)))

end CursorDevRules
